import Mathlib

/-!
Shallow embedding of `just-json` (src/json-read.h, src/json-write.h).

The decoder operates over a `FILE*`; we model the stream as a byte list with
a cursor position and a one-byte `ungetc` pushback slot (matching the stdio
operations the header uses: `fgetc`, `ungetc`, `ftell`, `fseek`).  Bytes are
`Nat` values `< 256`; the decoder's `char c` field is an `Int` holding the
value of the C `char` object (so `fgetc` results `128..255` are stored as
negative values and `EOF` is `-1`).  The C `int error` flag (only ever 0/1)
is a `Bool`.  `unsigned long line/column` are `Nat` (they only ever grow by
small increments in these claims); the narrowing conversion to the `int`
fields of `JSON_Read_Peek` is modelled exactly (`toCInt` / `toCULong`).
-/

namespace JustJson

/-- A C stdio stream (as produced by `fmemopen` over a byte buffer):
the full data, the read position, and the one-byte `ungetc` pushback slot. -/
structure Stream where
  data : List Nat
  pos : Nat
  pushback : Option Nat
  deriving Repr, DecidableEq

/-- `fgetc`: return the pushback byte if present, else the byte at `pos`
(advancing), else `EOF = -1` leaving the stream unchanged. -/
def fgetc (s : Stream) : Int × Stream :=
  match s.pushback with
  | some b => ((b : Int), { s with pushback := none })
  | none =>
    match s.data.get? s.pos with
    | some b => ((b : Int), { s with pos := s.pos + 1 })
    | none => (-1, s)

/-- `ungetc(c, f)`: pushing `EOF` or pushing onto a full slot fails (returns
`EOF`); otherwise the unsigned-char value of `c` goes into the pushback slot
and is returned. -/
def c_ungetc (c : Int) (s : Stream) : Int × Stream :=
  if c = -1 then (-1, s)
  else
    match s.pushback with
    | some _ => (-1, s)
    | none =>
      let b : Nat := (c % 256).toNat
      ((b : Int), { s with pushback := some b })

/-- `ftell`: the read position, accounting for a pending pushback byte. -/
def ftell (s : Stream) : Int :=
  (s.pos : Int) - (if s.pushback.isSome then 1 else 0)

/-- `fseek(f, off, SEEK_SET)`: absolute seek; discards the pushback byte.
Seeking inside `[0, size]` succeeds (returns 0), anything else fails. -/
def fseek (s : Stream) (off : Int) : Int × Stream :=
  if 0 ≤ off ∧ off ≤ (s.data.length : Int) then
    (0, { s with pos := off.toNat, pushback := none })
  else (-1, s)

/-- Storing an `int` (an `fgetc` result) into the C `char` field `j->c`:
values `128..255` wrap to negatives, `EOF = -1` is kept. -/
def storeChar (r : Int) : Int :=
  if 128 ≤ r then r - 256 else r

/-- The narrowing conversion `unsigned long → int` used when
`JSON_Read_Peek` captures `line`/`column`. -/
def toCInt (n : Nat) : Int :=
  ((n % 2 ^ 32 : Nat) : Int) - (if n % 2 ^ 32 < 2 ^ 31 then 0 else 2 ^ 32)

/-- The widening conversion `int → unsigned long` used when
`jsonr_peek_end` restores `line`/`column`. -/
def toCULong (i : Int) : Nat := (i % 2 ^ 64).toNat

/-- `isspace` on a (char-promoted) `int`, C locale. -/
def c_isspace (c : Int) : Bool :=
  c = 32 ∨ c = 9 ∨ c = 10 ∨ c = 11 ∨ c = 12 ∨ c = 13

/-- `isdigit` on a (char-promoted) `int`, C locale. -/
def c_isdigit (c : Int) : Bool :=
  48 ≤ c ∧ c ≤ 57

/-- `JSON_Read_Data`: the decoder state (src/json-read.h:37-44). -/
structure JSON_Read_Data where
  s : Stream
  c : Int
  error : Bool
  read : Bool
  line : Nat
  column : Nat
  deriving Repr, DecidableEq

/-- `JSON_Read_Peek` (src/json-read.h:46-52).  `line`/`column` are C `int`s
(hence `Int` after the narrowing conversion), `pos` is a `long`. -/
structure JSON_Read_Peek where
  line : Int
  column : Int
  c : Int
  pos : Int
  read : Bool
  deriving Repr, DecidableEq

/-- The `JSONR_V_*` value-type enumeration (src/json-read.h:54-62). -/
def JSONR_V_INVALID : Nat := 0
def JSONR_V_NUMBER : Nat := 1
def JSONR_V_ARRAY : Nat := 2
def JSONR_V_TABLE : Nat := 3
def JSONR_V_STRING : Nat := 4
def JSONR_V_BOOL : Nat := 5
def JSONR_V_NULL : Nat := 6

/-- `jsonr_error` (src/json-read.h:141-143): set the sticky error flag. -/
def jsonr_error (j : JSON_Read_Data) : JSON_Read_Data :=
  { j with error := true }

/-- `_ensure_char` (src/json-read.h:145-151): lazily pull one byte. -/
def _ensure_char (j : JSON_Read_Data) : JSON_Read_Data :=
  if j.read then
    let (r, s') := fgetc j.s
    { j with read := false, c := storeChar r, s := s', column := j.column + 1 }
  else j

/-- `_advance` (src/json-read.h:153-155): mark the current byte consumed. -/
def _advance (j : JSON_Read_Data) : JSON_Read_Data :=
  { j with read := true }

/-- `_comma` (src/json-read.h:157-162): consume one comma if it is the very
next byte (no whitespace skipping). -/
def _comma (j : JSON_Read_Data) : JSON_Read_Data :=
  let j := _ensure_char j
  if j.c = 44 then _advance j else j

/-- Loop body of `_skip_whitespace`, with fuel (the C loop terminates because
every continuing iteration consumes one stream byte until `EOF`). -/
def _skip_whitespace_go : Nat → JSON_Read_Data → JSON_Read_Data
  | 0, j => j
  | fuel + 1, j =>
    let j := _ensure_char j
    if c_isspace j.c then
      let j := if j.c = 10 then { j with line := j.line + 1, column := 0 } else j
      _skip_whitespace_go fuel (_advance j)
    else j

/-- `_skip_whitespace` (src/json-read.h:164-180). -/
def _skip_whitespace (j : JSON_Read_Data) : JSON_Read_Data :=
  _skip_whitespace_go (j.s.data.length + 2) j

/-- `_str_are_equal` (src/json-read.h:182-199): compare two
pointer+length byte ranges. -/
def _str_are_equal (a : List Nat) (a_length : Nat) (b : List Nat) (b_length : Nat) : Nat :=
  if a_length ≠ b_length then 0
  else if (List.range a_length).all (fun i => a.getD i 0 = b.getD i 0) then 1 else 0

/-- `jsonr_peek_begin` (src/json-read.h:201-213). -/
def jsonr_peek_begin (j : JSON_Read_Data) : JSON_Read_Peek × JSON_Read_Data :=
  let peek : JSON_Read_Peek :=
    { c := j.c, line := toCInt j.line, column := toCInt j.column,
      pos := ftell j.s, read := j.read }
  if peek.pos = -1 then (peek, jsonr_error j) else (peek, j)

/-- `jsonr_peek_end` (src/json-read.h:215-224). -/
def jsonr_peek_end (j : JSON_Read_Data) (peek : JSON_Read_Peek) : JSON_Read_Data :=
  let j := { j with c := peek.c, line := toCULong peek.line,
                    column := toCULong peek.column, read := peek.read }
  let (r, s') := fseek j.s peek.pos
  let j := { j with s := s' }
  if r ≠ 0 then jsonr_error j else j

/-- `jsonr_init` (src/json-read.h:226-233). -/
def jsonr_init (s : Stream) : JSON_Read_Data :=
  { s := s, c := 0, error := false, read := true, line := 1, column := 0 }

/-- `jsonr_v_table_begin` (src/json-read.h:235-250). -/
def jsonr_v_table_begin (j : JSON_Read_Data) : Nat × JSON_Read_Data :=
  if j.error then (0, j)
  else
    let j := _skip_whitespace j
    if j.c = 123 then (1, _advance j)
    else if j.c = -1 then (0, jsonr_error j)
    else (0, j)

/-- `jsonr_v_table_can_read` (src/json-read.h:252-264). -/
def jsonr_v_table_can_read (j : JSON_Read_Data) : Nat × JSON_Read_Data :=
  if j.error then (0, j)
  else
    let j := _skip_whitespace j
    if j.c = 125 then (0, _comma (_advance j))
    else (1, j)

/-- `jsonr_v_array_begin` (src/json-read.h:266-281). -/
def jsonr_v_array_begin (j : JSON_Read_Data) : Nat × JSON_Read_Data :=
  if j.error then (0, j)
  else
    let j := _skip_whitespace j
    if j.c = 91 then (1, _advance j)
    else if j.c = -1 then (0, jsonr_error j)
    else (0, j)

/-- `jsonr_v_array_can_read` (src/json-read.h:283-295). -/
def jsonr_v_array_can_read (j : JSON_Read_Data) : Nat × JSON_Read_Data :=
  if j.error then (0, j)
  else
    let j := _skip_whitespace j
    if j.c = 93 then (0, _comma (_advance j))
    else (1, j)

/-- `JSONR_STRINGLEN_READ_BUFFER_SIZE` (src/json-read.h:34). -/
def JSONR_STRINGLEN_READ_BUFFER_SIZE : Nat := 1024 * 8

/-- The `static char buf[...]` of `jsonr_read_stringlen`, as a total index →
byte map (C writes past the array's end are representable this way;
the `writes` trace below records every index actually stored to). -/
def Buf := Nat → Nat

/-- Result of `jsonr_read_stringlen`: the decoder state, the (static) buffer
after the call, the value stored through `*len`, and — as instrumentation for
the bounds claims — the list of buffer indices written, in order.  `len` is
`0` on the early-return paths where the C code leaves `*len` unassigned. -/
structure StrRes where
  j : JSON_Read_Data
  buf : Buf
  len : Nat
  writes : List Nat

/-- The `for(;;)` loop of `jsonr_read_stringlen` (src/json-read.h:314-382),
with fuel (each iteration consumes one stream byte, so the loop terminates
at the closing quote or `EOF`).  Every branch that stores `buf[*len] = x`
appends the index to `writes`. -/
def jsonr_read_stringlen_go :
    Nat → JSON_Read_Data → Buf → Nat → Bool → List Nat → StrRes
  | 0, j, buf, len, _, w => ⟨j, buf, len, w⟩
  | fuel + 1, j, buf, len, escaped, w =>
    let j := _advance (_ensure_char j)
    if j.c = -1 then ⟨jsonr_error j, buf, len, w⟩
    else if j.c = 8 then ⟨jsonr_error j, buf, len, w⟩
    else if j.c = 12 then ⟨jsonr_error j, buf, len, w⟩
    else if j.c = 10 then ⟨jsonr_error j, buf, len, w⟩
    else if j.c = 13 then ⟨jsonr_error j, buf, len, w⟩
    else if j.c = 9 then ⟨jsonr_error j, buf, len, w⟩
    else if j.c = 92 then
      jsonr_read_stringlen_go fuel j buf (len + 1) true w
    else if escaped then
      let b : Nat :=
        if j.c = 34 then 34
        else if j.c = 92 then 92
        else if j.c = 98 then 8
        else if j.c = 102 then 12
        else if j.c = 110 then 10
        else if j.c = 114 then 13
        else if j.c = 116 then 9
        else (j.c % 256).toNat
      jsonr_read_stringlen_go fuel j (Function.update buf len b) (len + 1) false
        (w ++ [len])
    else if j.c = 34 then ⟨j, buf, len, w⟩
    else
      jsonr_read_stringlen_go fuel j (Function.update buf len ((j.c % 256).toNat))
        (len + 1) false (w ++ [len])

/-- `jsonr_read_stringlen` (src/json-read.h:297-383).  On success (`*val =
buf` reached) the decoded bytes are the first `len` entries of `buf`. -/
def jsonr_read_stringlen (j : JSON_Read_Data) (buf : Buf) : StrRes :=
  if j.error then ⟨j, buf, 0, []⟩
  else
    let j := _skip_whitespace j
    if j.c ≠ 34 then ⟨jsonr_error j, buf, 0, []⟩
    else
      let j := _advance j
      jsonr_read_stringlen_go (j.s.data.length + 2) j buf 0 false []

/-- The first `len` decoded bytes of the buffer (`*val`/`*len` as a list). -/
def strValue (r : StrRes) : List Nat :=
  (List.range r.len).map r.buf

/-- `jsonr_v_stringlen` (src/json-read.h:385-388): read a string value, then
consume an optional comma (note: `_comma` runs even when the error flag was
already set at entry). -/
def jsonr_v_stringlen (j : JSON_Read_Data) (buf : Buf) : StrRes :=
  let r := jsonr_read_stringlen j buf
  { r with j := _comma r.j }

/-- `jsonr_k` (src/json-read.h:390-406): read a key (string + `:`).
Returns the decoded key bytes alongside the new state and buffer. -/
def jsonr_k (j : JSON_Read_Data) (buf : Buf) : JSON_Read_Data × Buf × List Nat × Nat :=
  if j.error then (j, buf, [], 0)
  else
    let r := jsonr_read_stringlen j buf
    let j := _skip_whitespace r.j
    if j.c ≠ 58 then (jsonr_error j, r.buf, strValue r, r.len)
    else (_advance j, r.buf, strValue r, r.len)

/-- `strlen` on the byte list of a C string (length up to the first NUL). -/
def c_strlen (w : List Nat) : Nat := (w.takeWhile (· ≠ 0)).length

/-- `jsonr_k_is_stringlen` (src/json-read.h:408-417). -/
def jsonr_k_is_stringlen (j : JSON_Read_Data) (buf : Buf)
    (wants : List Nat) (wants_len : Nat) : Nat × JSON_Read_Data × Buf :=
  let (j, buf, has, has_len) := jsonr_k j buf
  if j.error then (0, j, buf)
  else (_str_are_equal has has_len wants wants_len, j, buf)

/-- `jsonr_k_is` (src/json-read.h:419-427): probe a key non-destructively
(snapshot, read+compare, restore — the restore happens on match too). -/
def jsonr_k_is (j : JSON_Read_Data) (buf : Buf) (key : List Nat) :
    Nat × JSON_Read_Data × Buf :=
  let (peek, j) := jsonr_peek_begin j
  let (ret, j, buf) := jsonr_k_is_stringlen j buf key (c_strlen key)
  (ret, jsonr_peek_end j peek, buf)

/-- `jsonr_k_eat` (src/json-read.h:429-434): consume the key under the
cursor, discarding it. -/
def jsonr_k_eat (j : JSON_Read_Data) (buf : Buf) : JSON_Read_Data × Buf :=
  let (j, buf, _, _) := jsonr_k j buf
  (j, buf)

/-- `jsonr_k_case` (src/json-read.h:436-442): probe a key; on match,
consume it (re-reading it via `jsonr_k_eat`) and return 1. -/
def jsonr_k_case (j : JSON_Read_Data) (buf : Buf) (key : List Nat) :
    Nat × JSON_Read_Data × Buf :=
  let (ret, j, buf) := jsonr_k_is j buf key
  if ret ≠ 0 then
    let (j, buf) := jsonr_k_eat j buf
    (1, j, buf)
  else (0, j, buf)

/-- `jsonr_v_get_type` (src/json-read.h:444-472): classify the value under
the cursor from its first non-whitespace byte, consuming only whitespace. -/
def jsonr_v_get_type (j : JSON_Read_Data) : Nat × JSON_Read_Data :=
  if j.error then (0, j)
  else
    let j := _skip_whitespace j
    if j.c = 34 then (JSONR_V_STRING, j)
    else if c_isdigit j.c then (JSONR_V_NUMBER, j)
    else if j.c = 116 then (JSONR_V_BOOL, j)
    else if j.c = 102 then (JSONR_V_BOOL, j)
    else if j.c = 110 then (JSONR_V_NULL, j)
    else if j.c = 123 then (JSONR_V_TABLE, j)
    else if j.c = 91 then (JSONR_V_ARRAY, j)
    else (JSONR_V_INVALID, j)

/-- Whitespace skipping performed by the `%lf` conversion of `fscanf`
(reads via `fgetc`; a non-space lookahead is pushed back, i.e. the stream is
left as it was before that read). -/
def fscanfSkipWs : Nat → Stream → Stream
  | 0, s => s
  | fuel + 1, s =>
    let (r, s') := fgetc s
    if r = -1 then s'
    else if c_isspace r then fscanfSkipWs fuel s'
    else s

/-- The bytes still readable from a stream (pushback slot first). -/
def streamRest (s : Stream) : List Nat :=
  match s.pushback with
  | some b => b :: s.data.drop s.pos
  | none => s.data.drop s.pos

/-- Count the leading decimal digits of a byte list. -/
def countDigits : List Nat → Nat
  | b :: t => if 48 ≤ b ∧ b ≤ 57 then countDigits t + 1 else 0
  | [] => 0

/-- Modelling the host's `%lf` scanner: length of the longest prefix that is
a valid decimal floating literal (optional sign, digits, optional fraction,
optional exponent with at least one digit); `0` when no literal starts
here. -/
def floatMatchLen (l : List Nat) : Nat :=
  let sgn : Nat := match l.head? with
    | some b => if b = 43 ∨ b = 45 then 1 else 0
    | none => 0
  let l1 := l.drop sgn
  let d1 := countDigits l1
  let l2 := l1.drop d1
  let hasDot : Bool := l2.head? = some 46
  let d2 := if hasDot then countDigits (l2.drop 1) else 0
  let l3 := if hasDot then l2.drop (1 + d2) else l2
  if d1 + d2 = 0 then 0
  else
    let m := sgn + d1 + (if hasDot then 1 + d2 else 0)
    match l3.head? with
    | some b =>
      if b = 101 ∨ b = 69 then
        let es : Nat := match (l3.drop 1).head? with
          | some b2 => if b2 = 43 ∨ b2 = 45 then 1 else 0
          | none => 0
        let d3 := countDigits (l3.drop (1 + es))
        if d3 = 0 then m else m + 1 + es + d3
      else m
    | none => m

/-- Consume `n` readable bytes.  `fscanf` reads them via `fgetc` and pushes
back the one-byte lookahead that ended the match; the net effect (the same
`ftell` and the same subsequent reads) is position advanced past the match
with an empty pushback slot, which is how we represent it. -/
def streamConsume (s : Stream) (n : Nat) : Stream :=
  if n = 0 then s
  else
    match s.pushback with
    | some _ => { s with pos := s.pos + (n - 1), pushback := none }
    | none => { s with pos := s.pos + n }

/-- Modelling the host's `fscanf(f, "%lf", &val)`: skip whitespace, then
convert the longest decimal float literal.  Returns the `fscanf` result
(`1` converted, `0` matching failure, `-1` end of input), the matched bytes
(the numeric value itself carries no further information for these claims),
and the stream.  On matching failure the lookahead is pushed back, so the
stream position is unchanged. -/
def fscanf_lf (s : Stream) : Int × List Nat × Stream :=
  let s1 := fscanfSkipWs (s.data.length + 2) s
  let rest := streamRest s1
  if rest.isEmpty then (-1, [], s1)
  else
    let n := floatMatchLen rest
    if n = 0 then (0, [], s1)
    else (1, rest.take n, streamConsume s1 n)

/-- `unsigned long` addition of a possibly negative delta
(`j->column += ftell(j->f) - tell_before`). -/
def addToULong (n : Nat) (d : Int) : Nat := (((n : Int) + d) % (2 ^ 64)).toNat

/-- `jsonr_v_number` (src/json-read.h:474-510).  The `double` result is
represented by the matched token bytes (numeric precision is the host
scanner's and is out of scope). -/
def jsonr_v_number (j : JSON_Read_Data) : List Nat × JSON_Read_Data :=
  if j.error then ([], j)
  else
    let j := _skip_whitespace j
    let tell_before := ftell j.s
    let (u, s) := c_ungetc j.c j.s
    let j := { j with s := s }
    if u ≠ j.c then ([], jsonr_error j)
    else
      let (result, val, s') := fscanf_lf j.s
      let j := { j with s := s', column := addToULong j.column (ftell s' - tell_before) }
      if result = 1 then (val, _comma { j with read := true })
      else if result ≠ 0 then ([], jsonr_error j)
      else if result = -1 then ([], jsonr_error j)
      else ([], jsonr_error j)

/-- `jsonr_v_bool` (src/json-read.h:512-534), translated branch for branch:
after each `_advance` the code inspects `j->c` again without an
`_ensure_char`, so it re-reads the byte it just consumed. -/
def jsonr_v_bool (j : JSON_Read_Data) : Nat × JSON_Read_Data :=
  if j.error then (0, j)
  else
    let j := _skip_whitespace j
    if j.c = 116 then
      let j := _advance j
      if j.c ≠ 114 then (0, jsonr_error j) else
      let j := _advance j
      if j.c ≠ 117 then (0, jsonr_error j) else
      let j := _advance j
      if j.c ≠ 101 then (0, jsonr_error j) else
      (1, _comma j)
    else if j.c = 102 then
      let j := _advance j
      if j.c ≠ 97 then (0, jsonr_error j) else
      let j := _advance j
      if j.c ≠ 108 then (0, jsonr_error j) else
      let j := _advance j
      if j.c ≠ 115 then (0, jsonr_error j) else
      let j := _advance j
      if j.c ≠ 101 then (0, jsonr_error j) else
      (0, _comma j)
    else (0, { j with error := true })

/-- `jsonr_v_null` (src/json-read.h:536-550), with the same
missing-`_ensure_char` structure as `jsonr_v_bool`. -/
def jsonr_v_null (j : JSON_Read_Data) : Nat × JSON_Read_Data :=
  if j.error then (0, j)
  else
    let j := _skip_whitespace j
    if j.c = 110 then
      let j := _advance j
      if j.c ≠ 117 then (0, jsonr_error j) else
      let j := _advance j
      if j.c ≠ 108 then (0, jsonr_error j) else
      let j := _advance j
      if j.c ≠ 108 then (0, jsonr_error j) else
      (1, _comma j)
    else (0, jsonr_error j)

mutual

/-- `jsonr_v_skip` (src/json-read.h:552-584), with fuel for the recursion
and the traversal loops (each loop step consumes input). -/
def jsonr_v_skip : Nat → JSON_Read_Data → Buf → JSON_Read_Data × Buf
  | 0, j, buf => (j, buf)
  | fuel + 1, j, buf =>
    if j.error then (j, buf)
    else
      let (ty, j) := jsonr_v_get_type j
      if ty = JSONR_V_INVALID then (jsonr_error j, buf)
      else if ty = JSONR_V_NUMBER then ((jsonr_v_number j).2, buf)
      else if ty = JSONR_V_ARRAY then
        let (_, j) := jsonr_v_array_begin j
        jsonr_v_skip_arrayLoop fuel j buf
      else if ty = JSONR_V_TABLE then
        let (_, j) := jsonr_v_table_begin j
        jsonr_v_skip_tableLoop fuel j buf
      else if ty = JSONR_V_STRING then
        let r := jsonr_v_stringlen j buf
        (r.j, r.buf)
      else if ty = JSONR_V_BOOL then ((jsonr_v_bool j).2, buf)
      else ((jsonr_v_null j).2, buf)

/-- The `jsonr_v_array(j) { jsonr_v_skip(j); }` loop inside
`jsonr_v_skip`. -/
def jsonr_v_skip_arrayLoop : Nat → JSON_Read_Data → Buf → JSON_Read_Data × Buf
  | 0, j, buf => (j, buf)
  | fuel + 1, j, buf =>
    let (r, j) := jsonr_v_array_can_read j
    if r ≠ 0 then
      let (j, buf) := jsonr_v_skip fuel j buf
      jsonr_v_skip_arrayLoop fuel j buf
    else (j, buf)

/-- The `jsonr_v_table(j) { jsonr_k_eat(j); jsonr_v_skip(j); }` loop inside
`jsonr_v_skip`. -/
def jsonr_v_skip_tableLoop : Nat → JSON_Read_Data → Buf → JSON_Read_Data × Buf
  | 0, j, buf => (j, buf)
  | fuel + 1, j, buf =>
    let (r, j) := jsonr_v_table_can_read j
    if r ≠ 0 then
      let (j, buf) := jsonr_k_eat j buf
      let (j, buf) := jsonr_v_skip fuel j buf
      jsonr_v_skip_tableLoop fuel j buf
    else (j, buf)

end

/-- `jsonr_kv_skip` (src/json-read.h:587-590). -/
def jsonr_kv_skip (fuel : Nat) (j : JSON_Read_Data) (buf : Buf) :
    JSON_Read_Data × Buf :=
  let (j, buf) := jsonr_k_eat j buf
  jsonr_v_skip fuel j buf

/-- Caller loop `for(jsonr_v_table_begin; jsonr_v_table_can_read; )
{ jsonr_k_eat; jsonr_v_number; }` — the claim's traversal of a table of
numeric values. -/
def driveTableLoop : Nat → JSON_Read_Data → Buf → JSON_Read_Data
  | 0, j, _ => j
  | fuel + 1, j, buf =>
    let (r, j) := jsonr_v_table_can_read j
    if r ≠ 0 then
      let (j, buf) := jsonr_k_eat j buf
      let j := (jsonr_v_number j).2
      driveTableLoop fuel j buf
    else j

/-- Decode a whole numeric-valued table from raw input bytes with the
begin/can_read traversal loop, starting from a fresh stream, fresh decoder
state and zeroed static buffer. -/
def driveTableNums (input : List Nat) : JSON_Read_Data :=
  let j := jsonr_init ⟨input, 0, none⟩
  let (_, j) := jsonr_v_table_begin j
  driveTableLoop (input.length + 4) j (fun _ => 0)

/-- Caller loop `for(jsonr_v_array_begin; jsonr_v_array_can_read; )
{ jsonr_v_number; }`. -/
def driveArrayLoop : Nat → JSON_Read_Data → JSON_Read_Data
  | 0, j => j
  | fuel + 1, j =>
    let (r, j) := jsonr_v_array_can_read j
    if r ≠ 0 then driveArrayLoop fuel (jsonr_v_number j).2
    else j

/-- Decode a whole numeric array from raw input bytes with the
begin/can_read traversal loop. -/
def driveArrayNums (input : List Nat) : JSON_Read_Data :=
  let j := jsonr_init ⟨input, 0, none⟩
  let (_, j) := jsonr_v_array_begin j
  driveArrayLoop (input.length + 4) j

/-! ### Encoder (src/json-write.h)

The encoder writes to a `FILE*`; each operation is modelled as a function
from the encoder state to the new state and the byte chunk it emits.
`long table_stack`/`array_stack` are `Int`, `int do_comma` (only ever 0/1)
is a `Bool`.  The `assert(0 && ...)` in the `end` functions terminates the
process; an aborting call is modelled as `none`. -/

/-- `JSON_Write_Data` (src/json-write.h:34-39). -/
structure JSON_Write_Data where
  table_stack : Int
  array_stack : Int
  do_comma : Bool
  deriving Repr, DecidableEq

/-- `jsonw_init` (src/json-write.h:93-98). -/
def jsonw_init : JSON_Write_Data :=
  { table_stack := 0, array_stack := 0, do_comma := false }

/-- `jsonw_maybe_comma` (src/json-write.h:100-105). -/
def jsonw_maybe_comma (w : JSON_Write_Data) : JSON_Write_Data × List Nat :=
  if w.do_comma then ({ w with do_comma := false }, [44])
  else (w, [])

/-- `ESCAPE_LUT` (src/json-write.h:136-143): byte → escape index (1-7) or 0.
In C the index expression `str[char_it]` is a (signed) `char`, so bytes
≥ 128 index before the table (undefined behaviour); they are modelled as
unescaped here and are exercised by no claim. -/
def ESCAPE_LUT (b : Nat) : Nat :=
  if b = 34 then 1
  else if b = 92 then 2
  else if b = 8 then 3
  else if b = 12 then 4
  else if b = 10 then 5
  else if b = 13 then 6
  else if b = 9 then 7
  else 0

/-- `ESCAPE_STR` (src/json-write.h:145): the two-byte escape sequences,
indexed by `ESCAPE_LUT` value minus one. -/
def ESCAPE_STR (k : Nat) : List Nat :=
  if k = 1 then [92, 34]
  else if k = 2 then [92, 92]
  else if k = 3 then [92, 98]
  else if k = 4 then [92, 102]
  else if k = 5 then [92, 110]
  else if k = 6 then [92, 114]
  else [92, 116]

/-- `jsonw_escaped_string` (src/json-write.h:147-168): the `goto search`
loop emits, for each input byte, either the byte itself or its two-byte
escape; modelled byte-wise (the C loop batches the unescaped runs into
single `fprintf` calls, emitting the same bytes). -/
def jsonw_escaped_string (str : List Nat) : List Nat :=
  str.flatMap (fun b => if ESCAPE_LUT b ≠ 0 then ESCAPE_STR (ESCAPE_LUT b) else [b])

/-- `jsonw_klen` (src/json-write.h:170-178). -/
def jsonw_klen (w : JSON_Write_Data) (str : List Nat) : JSON_Write_Data × List Nat :=
  let (w, out) := jsonw_maybe_comma w
  (w, out ++ [34] ++ jsonw_escaped_string str ++ [34, 58])

/-- `jsonw_v_table_begin` (src/json-write.h:184-189). -/
def jsonw_v_table_begin (w : JSON_Write_Data) : JSON_Write_Data × List Nat :=
  let (w, out) := jsonw_maybe_comma w
  ({ w with table_stack := w.table_stack + 1 }, out ++ [123])

/-- `jsonw_v_table_end` (src/json-write.h:191-199): asserts (aborts) when no
table is open, else pops and emits `}`. -/
def jsonw_v_table_end (w : JSON_Write_Data) : Option (JSON_Write_Data × List Nat) :=
  if w.table_stack ≤ 0 then none
  else some ({ w with table_stack := w.table_stack - 1, do_comma := true }, [125])

/-- `jsonw_v_array_begin` (src/json-write.h:201-206). -/
def jsonw_v_array_begin (w : JSON_Write_Data) : JSON_Write_Data × List Nat :=
  let (w, out) := jsonw_maybe_comma w
  ({ w with array_stack := w.array_stack + 1 }, out ++ [91])

/-- `jsonw_v_array_end` (src/json-write.h:208-216). -/
def jsonw_v_array_end (w : JSON_Write_Data) : Option (JSON_Write_Data × List Nat) :=
  if w.array_stack ≤ 0 then none
  else some ({ w with array_stack := w.array_stack - 1, do_comma := true }, [93])

/-- Decimal digits of a natural number (most significant first), as ASCII
bytes; the workhorse of the `%lld`/`%llu` conversions. -/
def natDecGo : Nat → Nat → List Nat → List Nat
  | 0, n, acc => (48 + n % 10) :: acc
  | fuel + 1, n, acc =>
    if n < 10 then (48 + n) :: acc
    else natDecGo fuel (n / 10) ((48 + n % 10) :: acc)

/-- ASCII decimal representation of a natural number. -/
def natDec (n : Nat) : List Nat := natDecGo n n []

/-- `fprintf(f, "%lld", val)` output bytes. -/
def formatLLD (i : Int) : List Nat :=
  if i < 0 then 45 :: natDec (-i).toNat else natDec i.toNat

/-- `jsonw_v_int` (src/json-write.h:218-223). -/
def jsonw_v_int (w : JSON_Write_Data) (val : Int) : JSON_Write_Data × List Nat :=
  let (w, out) := jsonw_maybe_comma w
  ({ w with do_comma := true }, out ++ formatLLD val)

/-- `jsonw_v_uint` (src/json-write.h:225-230). -/
def jsonw_v_uint (w : JSON_Write_Data) (val : Nat) : JSON_Write_Data × List Nat :=
  let (w, out) := jsonw_maybe_comma w
  ({ w with do_comma := true }, out ++ natDec val)

/-- The output alphabet of the host's `%f` conversion: digits, sign, decimal
point, and the letters of `inf`/`nan`.  `jsonw_v_float` delegates the
rendering of the `double` to `fprintf`, which is external to the repository;
its output is modelled by an arbitrary nonempty string over this
alphabet. -/
def floatFmtOk (l : List Nat) : Bool :=
  !l.isEmpty && l.all (fun b =>
    (48 ≤ b ∧ b ≤ 57) ∨ b = 45 ∨ b = 46 ∨ b = 105 ∨ b = 110 ∨ b = 102 ∨ b = 97)

/-- `jsonw_v_float` (src/json-write.h:232-237), taking the
already-formatted `%f` rendering of the double. -/
def jsonw_v_float (w : JSON_Write_Data) (rendered : List Nat) : JSON_Write_Data × List Nat :=
  let (w, out) := jsonw_maybe_comma w
  ({ w with do_comma := true }, out ++ rendered)

/-- `jsonw_v_bool` (src/json-write.h:239-244). -/
def jsonw_v_bool (w : JSON_Write_Data) (val : Bool) : JSON_Write_Data × List Nat :=
  let (w, out) := jsonw_maybe_comma w
  ({ w with do_comma := true },
    out ++ (if val = false then [102, 97, 108, 115, 101] else [116, 114, 117, 101]))

/-- `jsonw_v_stringlen` (src/json-write.h:246-254). -/
def jsonw_v_stringlen (w : JSON_Write_Data) (val : List Nat) : JSON_Write_Data × List Nat :=
  let (w, out) := jsonw_maybe_comma w
  ({ w with do_comma := true }, out ++ [34] ++ jsonw_escaped_string val ++ [34])

/-- `jsonw_kv_int` (src/json-write.h:260-263); the other `jsonw_kv_*`
helpers compose the same way. -/
def jsonw_kv_int (w : JSON_Write_Data) (key : List Nat) (val : Int) :
    JSON_Write_Data × List Nat :=
  let (w, out1) := jsonw_klen w key
  let (w, out2) := jsonw_v_int w val
  (w, out1 ++ out2)

/-- One call of the encoder's key/value/structure API (`jsonw_k` and
`jsonw_v_string` are `strlen` wrappers around the `len` forms, and the
`jsonw_kv_*` helpers are pure compositions, so the byte-list forms cover
them). -/
inductive WOp where
  | klen (str : List Nat)
  | tableBegin
  | tableEnd
  | arrayBegin
  | arrayEnd
  | vInt (val : Int)
  | vUint (val : Nat)
  | vFloat (rendered : List Nat) (h : floatFmtOk rendered = true)
  | vBool (val : Bool)
  | vStringlen (val : List Nat)
  | kvInt (key : List Nat) (val : Int)
  | maybeComma

/-- Run one encoder operation: the new state and the emitted bytes, or
`none` when the operation trips the nesting assertion (process abort). -/
def runWOp (op : WOp) (w : JSON_Write_Data) : Option (JSON_Write_Data × List Nat) :=
  match op with
  | .klen str => some (jsonw_klen w str)
  | .tableBegin => some (jsonw_v_table_begin w)
  | .tableEnd => jsonw_v_table_end w
  | .arrayBegin => some (jsonw_v_array_begin w)
  | .arrayEnd => jsonw_v_array_end w
  | .vInt v => some (jsonw_v_int w v)
  | .vUint v => some (jsonw_v_uint w v)
  | .vFloat r _ => some (jsonw_v_float w r)
  | .vBool v => some (jsonw_v_bool w v)
  | .vStringlen v => some (jsonw_v_stringlen w v)
  | .kvInt k v => some (jsonw_kv_int w k v)
  | .maybeComma => some (jsonw_maybe_comma w)

/-- The emitted chunk of an operation does not begin with a comma. -/
def noLeadingComma (r : Option (JSON_Write_Data × List Nat)) : Prop :=
  match r with
  | none => True
  | some (_, out) => out.head? ≠ some 44

/-- The value-classification table as the (amended) spec states it, written
independently of `jsonr_v_get_type` for comparison: `"` → string, a decimal
digit → number, `t`/`f` → boolean, `n` → null, `{` → table, `[` → array,
anything else (including `-`, `+`, `.`) → invalid. -/
def classifySpec (c : Int) : Nat :=
  if c = 34 then JSONR_V_STRING
  else if 48 ≤ c ∧ c ≤ 57 then JSONR_V_NUMBER
  else if c = 116 ∨ c = 102 then JSONR_V_BOOL
  else if c = 110 then JSONR_V_NULL
  else if c = 123 then JSONR_V_TABLE
  else if c = 91 then JSONR_V_ARRAY
  else JSONR_V_INVALID

/-! ### Claim theorems -/

/-- C1, counterexample: the claim asserts that decoding `[1,2,]` with the
begin/can_read traversal loop ends with the sticky error flag set; on the
code it ends with no error (`_comma` consumes a trailing comma silently). -/
theorem C1_counterexample :
    (driveArrayNums [91, 49, 44, 50, 44, 93]).error = false := by decide

/-- C1, amended: driving the decoder with the begin/can_read traversal loop,
all of `{"a":1,"b":2,}`, `{"a":1 "b":2}`, `[1,2,]`, `{}`, `[]`, `{"a":1}`,
`[1,2]` decode with no error — the comma grammar is lenient, not strict
(after each element at most one optional comma is consumed, so trailing and
missing commas are both accepted).  Whitespace after a comma is skipped
(`[1, 2]` succeeds), but whitespace between a value and a following comma is
not (`[1 ,2]` fails), because `_comma` checks the very next byte. -/
theorem C1_lenient_comma_grammar :
    (driveTableNums [123, 34, 97, 34, 58, 49, 44, 34, 98, 34, 58, 50, 44, 125]).error = false ∧
    (driveTableNums [123, 34, 97, 34, 58, 49, 32, 34, 98, 34, 58, 50, 125]).error = false ∧
    (driveArrayNums [91, 49, 44, 50, 44, 93]).error = false ∧
    (driveTableNums [123, 125]).error = false ∧
    (driveArrayNums [91, 93]).error = false ∧
    (driveTableNums [123, 34, 97, 34, 58, 49, 125]).error = false ∧
    (driveArrayNums [91, 49, 44, 50, 93]).error = false ∧
    (driveArrayNums [91, 49, 44, 32, 50, 93]).error = false ∧
    (driveArrayNums [91, 49, 32, 44, 50, 93]).error = true := by decide

/-- C2: round-tripping fails already on the boolean value `true`: the
encoder emits the bytes `true`, but decoding them with `jsonr_v_bool`
returns 0 with the error flag set (the reader inspects `j->c` after
`_advance` without `_ensure_char`, so it compares the stale `t` against
`r`).  `decode(encode(true)) == true` does not hold. -/
theorem C2_roundtrip_fails_on_bool :
    (jsonw_v_bool jsonw_init true).2 = [116, 114, 117, 101] ∧
    (jsonr_v_bool (jsonr_init ⟨(jsonw_v_bool jsonw_init true).2, 0, none⟩)).1 = 0 ∧
    (jsonr_v_bool (jsonr_init ⟨(jsonw_v_bool jsonw_init true).2, 0, none⟩)).2.error = true := by
  decide

/-- C3: decoding the well-quoted literal `"\n"` (bytes `34 92 110 34`)
succeeds with no error but returns length 2, not 1, and the buffer's first
bytes are `[0, 10]`, not `[10]`: the `*len += 1` at the bottom of the loop
also runs for the backslash byte itself, so every escape sequence
contributes two output bytes, the first being whatever the static buffer
held at that index. -/
theorem C3_escape_contributes_two_bytes :
    (jsonr_read_stringlen (jsonr_init ⟨[34, 92, 110, 34], 0, none⟩) (fun _ => 0)).j.error
        = false ∧
    (jsonr_read_stringlen (jsonr_init ⟨[34, 92, 110, 34], 0, none⟩) (fun _ => 0)).len = 2 ∧
    strValue (jsonr_read_stringlen (jsonr_init ⟨[34, 92, 110, 34], 0, none⟩) (fun _ => 0))
        = [0, 10] := by
  decide

/-- C4: `jsonr_v_bool` on the exact literal `true` returns 0 with the error
flag set (not 1 with no error as claimed), and likewise fails on `false` and
`jsonr_v_null` fails on `null`: after each `_advance` the code checks
`j->c` without refreshing it, so the second comparison always sees the first
character of the literal and fails. -/
theorem C4_literal_matching_always_fails :
    (jsonr_v_bool (jsonr_init ⟨[116, 114, 117, 101], 0, none⟩)).1 = 0 ∧
    (jsonr_v_bool (jsonr_init ⟨[116, 114, 117, 101], 0, none⟩)).2.error = true ∧
    (jsonr_v_bool (jsonr_init ⟨[102, 97, 108, 115, 101], 0, none⟩)).1 = 0 ∧
    (jsonr_v_bool (jsonr_init ⟨[102, 97, 108, 115, 101], 0, none⟩)).2.error = true ∧
    (jsonr_v_null (jsonr_init ⟨[110, 117, 108, 108], 0, none⟩)).1 = 0 ∧
    (jsonr_v_null (jsonr_init ⟨[110, 117, 108, 108], 0, none⟩)).2.error = true := by
  decide

/-- C5, counterexample: the claim says a leading `-` (likewise `+`, `.`)
classifies as a number; on the input `-1` the code returns
`JSONR_V_INVALID`, not `JSONR_V_NUMBER` — only a decimal digit starts a
number for `jsonr_v_get_type`. -/
theorem C5_counterexample :
    (jsonr_v_get_type (jsonr_init ⟨[45, 49], 0, none⟩)).1 = JSONR_V_INVALID ∧
    JSONR_V_INVALID ≠ JSONR_V_NUMBER := by decide

/-- C5, amended: for every decoder state with no error, `jsonr_v_get_type`
classifies purely from the first byte after whitespace skipping — `"` as
string, a decimal digit (only: `-`, `+`, `.` are invalid) as number,
`t`/`f` as boolean, `n` as null, `{` as table, `[` as array, anything else
as invalid — and the state it returns is exactly the whitespace-skipped
state, so the classified byte is still under the cursor. -/
theorem C5_get_type_classifies_without_consuming (j : JSON_Read_Data)
    (h : j.error = false) :
    jsonr_v_get_type j = (classifySpec (_skip_whitespace j).c, _skip_whitespace j) := by
  unfold jsonr_v_get_type classifySpec c_isdigit
  rw [h]
  simp only [Bool.false_eq_true, if_false]
  split_ifs <;> simp_all

/-- Witness for C5: the amended theorem applied to the concrete state over
the input `t`. -/
theorem C5_get_type_classifies_without_consuming_witness :
    jsonr_v_get_type (jsonr_init ⟨[116], 0, none⟩) =
      (classifySpec (_skip_whitespace (jsonr_init ⟨[116], 0, none⟩)).c,
        _skip_whitespace (jsonr_init ⟨[116], 0, none⟩)) :=
  C5_get_type_classifies_without_consuming (jsonr_init ⟨[116], 0, none⟩) rfl

/-- C9: calling `jsonw_v_table_end` (resp. `jsonw_v_array_end`) with the
matching depth counter at zero (or below) trips the fatal assertion
(modelled as `none`) instead of returning an error value; with the counter
positive, the call decrements it by one, emits exactly the one closing
bracket byte, and sets the comma-pending flag. -/
theorem C9_encoder_nesting (w : JSON_Write_Data) :
    (w.table_stack ≤ 0 → jsonw_v_table_end w = none) ∧
    (0 < w.table_stack →
      jsonw_v_table_end w =
        some ({ w with table_stack := w.table_stack - 1, do_comma := true }, [125])) ∧
    (w.array_stack ≤ 0 → jsonw_v_array_end w = none) ∧
    (0 < w.array_stack →
      jsonw_v_array_end w =
        some ({ w with array_stack := w.array_stack - 1, do_comma := true }, [93])) := by
  unfold jsonw_v_table_end jsonw_v_array_end
  refine ⟨fun h => ?_, fun h => ?_, fun h => ?_, fun h => ?_⟩ <;> split_ifs <;>
    first | rfl | omega

/-- Witness for C9: the assertion fires when nothing is open, and closing a
singly-open table pops to zero, emits `}` and sets the comma flag. -/
theorem C9_encoder_nesting_witness :
    jsonw_v_table_end ⟨0, 0, false⟩ = none ∧
    jsonw_v_table_end ⟨1, 0, false⟩ = some (⟨0, 0, true⟩, [125]) ∧
    jsonw_v_array_end ⟨0, 0, false⟩ = none ∧
    jsonw_v_array_end ⟨0, 1, false⟩ = some (⟨0, 0, true⟩, [93]) :=
  ⟨(C9_encoder_nesting ⟨0, 0, false⟩).1 (by decide),
   (C9_encoder_nesting ⟨1, 0, false⟩).2.1 (by decide),
   (C9_encoder_nesting ⟨0, 0, false⟩).2.2.1 (by decide),
   (C9_encoder_nesting ⟨0, 1, false⟩).2.2.2 (by decide)⟩

/-- `natDecGo` always yields a nonempty list headed by a decimal digit. -/
theorem natDecGo_digits :
    ∀ fuel n acc, ∃ hd t, natDecGo fuel n acc = hd :: t ∧ 48 ≤ hd ∧ hd ≤ 57 := by
  intro fuel
  induction fuel with
  | zero =>
    intro n acc
    refine ⟨48 + n % 10, acc, rfl, by omega, ?_⟩
    have := Nat.mod_lt n (show 0 < 10 by norm_num)
    omega
  | succ f ih =>
    intro n acc
    unfold natDecGo
    split_ifs with h
    · exact ⟨48 + n, acc, rfl, by omega, by omega⟩
    · exact ih _ _

/-- A `%lld` rendering is nonempty and never starts with a comma. -/
theorem formatLLD_head : ∀ i : Int, ∃ hd t, formatLLD i = hd :: t ∧ hd ≠ 44 := by
  intro i
  unfold formatLLD natDec
  split_ifs with h
  · exact ⟨45, _, rfl, by omega⟩
  · obtain ⟨hd, t, he, h1, h2⟩ := natDecGo_digits i.toNat i.toNat []
    exact ⟨hd, t, he, by omega⟩

/-- After `jsonw_maybe_comma`, the comma-pending flag is always clear. -/
theorem maybe_comma_clears (w : JSON_Write_Data) :
    ((jsonw_maybe_comma w).1).do_comma = false := by
  unfold jsonw_maybe_comma
  split_ifs with h
  · rfl
  · simpa using h

/-- After `jsonw_v_table_begin`, the comma-pending flag is clear. -/
theorem table_begin_do_comma (s : JSON_Write_Data) :
    ((jsonw_v_table_begin s).1).do_comma = false := by
  have := maybe_comma_clears s
  unfold jsonw_v_table_begin
  rcases h : jsonw_maybe_comma s with ⟨a, b⟩
  rw [h] at this
  simpa using this

/-- After `jsonw_v_array_begin`, the comma-pending flag is clear. -/
theorem array_begin_do_comma (s : JSON_Write_Data) :
    ((jsonw_v_array_begin s).1).do_comma = false := by
  have := maybe_comma_clears s
  unfold jsonw_v_array_begin
  rcases h : jsonw_maybe_comma s with ⟨a, b⟩
  rw [h] at this
  simpa using this

/-- From a state whose comma-pending flag is clear, no encoder operation
emits a chunk that begins with a comma. -/
theorem chunk_noLeadingComma (w : JSON_Write_Data) (h : w.do_comma = false) (op : WOp) :
    noLeadingComma (runWOp op w) := by
  have hmc : jsonw_maybe_comma w = (w, []) := by
    unfold jsonw_maybe_comma
    rw [h]
    simp
  cases op with
  | klen s => simp [runWOp, jsonw_klen, hmc, noLeadingComma]
  | tableBegin => simp [runWOp, jsonw_v_table_begin, hmc, noLeadingComma]
  | tableEnd =>
    unfold runWOp jsonw_v_table_end
    split_ifs
    · trivial
    · simp [noLeadingComma]
  | arrayBegin => simp [runWOp, jsonw_v_array_begin, hmc, noLeadingComma]
  | arrayEnd =>
    unfold runWOp jsonw_v_array_end
    split_ifs
    · trivial
    · simp [noLeadingComma]
  | vInt v =>
    obtain ⟨hd, t, he, hne⟩ := formatLLD_head v
    simp [runWOp, jsonw_v_int, hmc, noLeadingComma, he, hne]
  | vUint v =>
    obtain ⟨hd, t, he, h1, h2⟩ := natDecGo_digits v v []
    simp only [runWOp, jsonw_v_uint, hmc, noLeadingComma, natDec, he]
    simp
    omega
  | vFloat r hr =>
    cases r with
    | nil => simp [floatFmtOk] at hr
    | cons hd t =>
      simp only [floatFmtOk, Bool.and_eq_true, List.all_cons] at hr
      have : hd ≠ 44 := by
        rcases hr with ⟨-, h1, -⟩
        simp at h1
        omega
      simp [runWOp, jsonw_v_float, hmc, noLeadingComma, this]
  | vBool v =>
    cases v <;> simp [runWOp, jsonw_v_bool, hmc, noLeadingComma]
  | vStringlen v => simp [runWOp, jsonw_v_stringlen, hmc, noLeadingComma]
  | kvInt k v => simp [runWOp, jsonw_kv_int, jsonw_klen, hmc, noLeadingComma]
  | maybeComma => simp [runWOp, hmc, noLeadingComma]

/-- C10: in every encoder state (hence in every state reachable from
`jsonw_init`), the comma-pending flag is clear immediately after
`jsonw_v_table_begin` or `jsonw_v_array_begin` returns; consequently the
very next encoder operation — the first element, key, or nested container
written inside the freshly opened `{`/`[` — never begins by emitting a
comma. -/
theorem C10_no_comma_after_open (s : JSON_Write_Data) (op : WOp) :
    ((jsonw_v_table_begin s).1).do_comma = false ∧
    ((jsonw_v_array_begin s).1).do_comma = false ∧
    noLeadingComma (runWOp op (jsonw_v_table_begin s).1) ∧
    noLeadingComma (runWOp op (jsonw_v_array_begin s).1) :=
  ⟨table_begin_do_comma s, array_begin_do_comma s,
   chunk_noLeadingComma _ (table_begin_do_comma s) op,
   chunk_noLeadingComma _ (array_begin_do_comma s) op⟩

/-- One iteration of the string-reading loop on a plain byte `a` (0x61):
the byte is stored at index `len` and the loop continues. -/
theorem step97 (f : Nat) (data : List Nat) (pos : Nat) (c : Int) (err : Bool)
    (ln col : Nat) (buf : Buf) (len : Nat) (w : List Nat)
    (hget : data[pos]? = some 97) :
    jsonr_read_stringlen_go (f + 1) ⟨⟨data, pos, none⟩, c, err, true, ln, col⟩ buf len false w =
      jsonr_read_stringlen_go f ⟨⟨data, pos + 1, none⟩, 97, err, true, ln, col + 1⟩
        (Function.update buf len 97) (len + 1) false (w ++ [len]) := by
  simp only [jsonr_read_stringlen_go, _ensure_char, _advance, fgetc, storeChar,
    List.get?_eq_getElem?, hget]
  norm_num
  rfl

/-- One iteration of the string-reading loop on an unescaped closing quote:
the loop returns with the accumulated length and write trace. -/
theorem step34 (f : Nat) (data : List Nat) (pos : Nat) (c : Int) (err : Bool)
    (ln col : Nat) (buf : Buf) (len : Nat) (w : List Nat)
    (hget : data[pos]? = some 34) :
    jsonr_read_stringlen_go (f + 1) ⟨⟨data, pos, none⟩, c, err, true, ln, col⟩ buf len false w =
      ⟨⟨⟨data, pos + 1, none⟩, 34, err, true, ln, col + 1⟩, buf, len, w⟩ := by
  simp only [jsonr_read_stringlen_go, _ensure_char, _advance, fgetc, storeChar,
    List.get?_eq_getElem?, hget]
  norm_num

/-- Running the string loop over `n` plain `a` bytes followed by the closing
quote stores one byte per input byte, at the consecutive indices
`len, len+1, …, len+n-1`, with no bound ever checked. -/
theorem stringlen_go_plain :
    ∀ (n : Nat) (fuel : Nat) (data : List Nat) (pos : Nat) (c : Int) (err : Bool)
      (ln col : Nat) (buf : Buf) (len : Nat) (w : List Nat) (rest : List Nat),
      data.drop pos = List.replicate n 97 ++ 34 :: rest →
      n + 1 ≤ fuel →
      (jsonr_read_stringlen_go fuel ⟨⟨data, pos, none⟩, c, err, true, ln, col⟩ buf len false w).len
          = len + n ∧
      (jsonr_read_stringlen_go fuel ⟨⟨data, pos, none⟩, c, err, true, ln, col⟩ buf len false w).writes
          = w ++ List.range' len n ∧
      (jsonr_read_stringlen_go fuel ⟨⟨data, pos, none⟩, c, err, true, ln, col⟩ buf len false w).j.error
          = err := by
  intro n
  induction n with
  | zero =>
    intro fuel data pos c err ln col buf len w rest hd hf
    obtain ⟨f, rfl⟩ : ∃ f, fuel = f + 1 := ⟨fuel - 1, by omega⟩
    have hget : data[pos]? = some 34 := by
      have := List.getElem?_drop data pos 0
      rw [hd] at this
      simpa using this.symm
    rw [step34 f data pos c err ln col buf len w hget]
    simp
  | succ m ih =>
    intro fuel data pos c err ln col buf len w rest hd hf
    obtain ⟨f, rfl⟩ : ∃ f, fuel = f + 1 := ⟨fuel - 1, by omega⟩
    have hget : data[pos]? = some 97 := by
      have := List.getElem?_drop data pos 0
      rw [hd] at this
      simp [List.replicate_succ] at this
      simpa using this.symm
    have hd' : data.drop (pos + 1) = List.replicate m 97 ++ 34 :: rest := by
      have h1 : data.drop (pos + 1) = (data.drop pos).drop 1 := by
        rw [List.drop_drop]
      rw [h1, hd]
      simp [List.replicate_succ]
    rw [step97 f data pos c err ln col buf len w hget]
    obtain ⟨e1, e2, e3⟩ := ih f data (pos + 1) 97 err ln (col + 1)
      (Function.update buf len 97) (len + 1) (w ++ [len]) rest hd' (by omega)
    refine ⟨by rw [e1]; omega, ?_, e3⟩
    rw [e2, List.range'_succ]
    simp

/-- `_skip_whitespace` on a non-whitespace ASCII byte fetches it and
returns. -/
theorem skipws_step_nonspace (f : Nat) (data : List Nat) (pos : Nat) (c : Int) (err : Bool)
    (ln col : Nat) (b : Nat) (hget : data[pos]? = some b) (hb : b < 128)
    (hsp : c_isspace ((b : Nat) : Int) = false) :
    _skip_whitespace_go (f + 1) ⟨⟨data, pos, none⟩, c, err, true, ln, col⟩ =
      ⟨⟨data, pos + 1, none⟩, ((b : Nat) : Int), err, false, ln, col + 1⟩ := by
  simp only [_skip_whitespace_go, _ensure_char, fgetc, storeChar, List.get?_eq_getElem?, hget]
  have h128 : ¬ (128 ≤ ((b : Nat) : Int)) := by exact_mod_cast by omega
  simp [h128, hsp]

/-- `jsonr_read_stringlen` on the literal consisting of `n` plain `a` bytes
between quotes: succeeds, reports length `n`, and writes buffer indices
`0, …, n-1` — for any `n`, with no capacity check. -/
theorem stringlen_overlong_general (n : Nat) :
    (jsonr_read_stringlen
        (jsonr_init ⟨34 :: (List.replicate n 97 ++ [34]), 0, none⟩) (fun _ => 0)).len = n ∧
    (jsonr_read_stringlen
        (jsonr_init ⟨34 :: (List.replicate n 97 ++ [34]), 0, none⟩) (fun _ => 0)).writes
      = List.range' 0 n ∧
    (jsonr_read_stringlen
        (jsonr_init ⟨34 :: (List.replicate n 97 ++ [34]), 0, none⟩) (fun _ => 0)).j.error
      = false := by
  have hlen : (34 :: (List.replicate n 97 ++ [34])).length = n + 2 := by
    simp
  have hskip : _skip_whitespace ⟨⟨34 :: (List.replicate n 97 ++ [34]), 0, none⟩, 0, false, true, 1, 0⟩
      = ⟨⟨34 :: (List.replicate n 97 ++ [34]), 1, none⟩, 34, false, false, 1, 1⟩ := by
    unfold _skip_whitespace
    simp only
    rw [hlen, show n + 2 + 2 = (n + 3) + 1 by omega]
    have := skipws_step_nonspace (n + 3) (34 :: (List.replicate n 97 ++ [34])) 0 0 false 1 0
      34 (by simp) (by norm_num) (by decide)
    norm_num at this
    exact this
  have hdrop : (34 :: (List.replicate n 97 ++ [34])).drop 1
      = List.replicate n 97 ++ 34 :: [] := by simp
  obtain ⟨e1, e2, e3⟩ := stringlen_go_plain n (n + 4)
    (34 :: (List.replicate n 97 ++ [34])) 1 34 false 1 1 (fun _ => 0) 0 [] [] hdrop
    (by omega)
  unfold jsonr_read_stringlen jsonr_init
  rw [hskip]
  simp only [_advance]
  norm_num [hlen]
  rw [show n + 2 + 2 = n + 4 by omega]
  refine ⟨by rw [e1]; omega, by rw [e2]; simp, e3⟩

/-- C6: on a string literal whose decoded form has 8193 bytes — one more
than `JSONR_STRINGLEN_READ_BUFFER_SIZE` — `jsonr_read_stringlen` completes
with no error, reports length 8193, and performs a buffer store at index
8192 `≥` the buffer capacity: there is no truncation or skip-remaining
mode, the code writes past the end of the 8192-byte static buffer. -/
theorem C6_overlong_string_writes_past_buffer :
    (jsonr_read_stringlen
        (jsonr_init ⟨34 :: (List.replicate 8193 97 ++ [34]), 0, none⟩) (fun _ => 0)).len
      = 8193 ∧
    (∃ i ∈ (jsonr_read_stringlen
        (jsonr_init ⟨34 :: (List.replicate 8193 97 ++ [34]), 0, none⟩) (fun _ => 0)).writes,
      JSONR_STRINGLEN_READ_BUFFER_SIZE ≤ i) ∧
    (jsonr_read_stringlen
        (jsonr_init ⟨34 :: (List.replicate 8193 97 ++ [34]), 0, none⟩) (fun _ => 0)).j.error
      = false := by
  obtain ⟨e1, e2, e3⟩ := stringlen_overlong_general 8193
  refine ⟨e1, ⟨8192, ?_, by norm_num [JSONR_STRINGLEN_READ_BUFFER_SIZE]⟩, e3⟩
  rw [e2]
  exact List.mem_range'_1.mpr ⟨Nat.zero_le _, by omega⟩

/-- Probing any key other than `x` on the decoder state sitting just inside
`{"x":1}` returns 0 and restores the cursor (current char, pending-read
flag, line, column, stream position) exactly: `jsonr_k_is` snapshots,
reads the key `x` and the colon, compares, and always restores the
snapshot. -/
theorem k_case_mismatch_restores (w : List Nat) (h0 : 0 ∉ w) (hne : w ≠ [120]) :
    (jsonr_k_case ⟨⟨[123, 34, 120, 34, 58, 49, 125], 1, none⟩, 123, false, true, 1, 1⟩
        (fun _ => 0) w).1 = 0 ∧
    (jsonr_k_case ⟨⟨[123, 34, 120, 34, 58, 49, 125], 1, none⟩, 123, false, true, 1, 1⟩
        (fun _ => 0) w).2.1
      = ⟨⟨[123, 34, 120, 34, 58, 49, 125], 1, none⟩, 123, false, true, 1, 1⟩ := by
  have hk : jsonr_k ⟨⟨[123, 34, 120, 34, 58, 49, 125], 1, none⟩, 123, false, true, 1, 1⟩
      (fun _ => 0)
      = (⟨⟨[123, 34, 120, 34, 58, 49, 125], 5, none⟩, 58, false, true, 1, 5⟩,
         Function.update (fun _ => 0) 0 120, [120], 1) := by
    rfl
  have hpb : jsonr_peek_begin
      ⟨⟨[123, 34, 120, 34, 58, 49, 125], 1, none⟩, 123, false, true, 1, 1⟩
      = (⟨1, 1, 123, 1, true⟩,
          ⟨⟨[123, 34, 120, 34, 58, 49, 125], 1, none⟩, 123, false, true, 1, 1⟩) := by
    decide
  have hpe : jsonr_peek_end
      ⟨⟨[123, 34, 120, 34, 58, 49, 125], 5, none⟩, 58, false, true, 1, 5⟩
      ⟨1, 1, 123, 1, true⟩
      = ⟨⟨[123, 34, 120, 34, 58, 49, 125], 1, none⟩, 123, false, true, 1, 1⟩ := by
    decide
  have hw : w.takeWhile (· ≠ 0) = w := by
    rw [List.takeWhile_eq_self_iff]
    intro x hx
    simp only [ne_eq, decide_eq_true_eq]
    intro hx0
    subst hx0
    exact h0 hx
  have heq0 : _str_are_equal [120] 1 w (c_strlen w) = 0 := by
    unfold _str_are_equal c_strlen
    rw [hw]
    split_ifs with h1 h2
    · rfl
    · exfalso
      have hlw : w.length = 1 := by omega
      obtain ⟨b, rfl⟩ : ∃ b, w = [b] := by
        match w, hlw with
        | [b], _ => exact ⟨b, rfl⟩
      simp at h2
      exact hne (by rw [← h2])
    · rfl
  have hks : jsonr_k_is_stringlen
      ⟨⟨[123, 34, 120, 34, 58, 49, 125], 1, none⟩, 123, false, true, 1, 1⟩ (fun _ => 0) w
      (c_strlen w)
      = (_str_are_equal [120] 1 w (c_strlen w),
         ⟨⟨[123, 34, 120, 34, 58, 49, 125], 5, none⟩, 58, false, true, 1, 5⟩,
         Function.update (fun _ => 0) 0 120) := by
    unfold jsonr_k_is_stringlen
    simp only [hk, Bool.false_eq_true, if_false]
  have hkis : jsonr_k_is
      ⟨⟨[123, 34, 120, 34, 58, 49, 125], 1, none⟩, 123, false, true, 1, 1⟩ (fun _ => 0) w
      = (_str_are_equal [120] 1 w (c_strlen w),
         ⟨⟨[123, 34, 120, 34, 58, 49, 125], 1, none⟩, 123, false, true, 1, 1⟩,
         Function.update (fun _ => 0) 0 120) := by
    unfold jsonr_k_is
    simp only [hpb, hks, hpe]
  unfold jsonr_k_case
  rw [hkis]
  simp [heq0]

/-- C7: on `{"x":1}`, after `jsonr_v_table_begin` the decoder sits in the
state with the `{` consumed; probing any key other than `x` (here any
NUL-free byte string) with `jsonr_k_case` returns 0 and leaves the state
bit-for-bit unchanged, so probing `y` and then `x` in sequence finds `x`:
the second probe returns 1 and leaves the cursor just past the colon. -/
theorem C7_failed_key_match_backtracks :
    (jsonr_v_table_begin (jsonr_init ⟨[123, 34, 120, 34, 58, 49, 125], 0, none⟩)
      = (1, ⟨⟨[123, 34, 120, 34, 58, 49, 125], 1, none⟩, 123, false, true, 1, 1⟩)) ∧
    (∀ w : List Nat, 0 ∉ w → w ≠ [120] →
      (jsonr_k_case ⟨⟨[123, 34, 120, 34, 58, 49, 125], 1, none⟩, 123, false, true, 1, 1⟩
          (fun _ => 0) w).1 = 0 ∧
      (jsonr_k_case ⟨⟨[123, 34, 120, 34, 58, 49, 125], 1, none⟩, 123, false, true, 1, 1⟩
          (fun _ => 0) w).2.1
        = ⟨⟨[123, 34, 120, 34, 58, 49, 125], 1, none⟩, 123, false, true, 1, 1⟩) ∧
    ((jsonr_k_case ⟨⟨[123, 34, 120, 34, 58, 49, 125], 1, none⟩, 123, false, true, 1, 1⟩
        (fun _ => 0) [121]).1 = 0 ∧
     (jsonr_k_case ⟨⟨[123, 34, 120, 34, 58, 49, 125], 1, none⟩, 123, false, true, 1, 1⟩
        (fun _ => 0) [121]).2.1
       = ⟨⟨[123, 34, 120, 34, 58, 49, 125], 1, none⟩, 123, false, true, 1, 1⟩) ∧
    ((jsonr_k_case ⟨⟨[123, 34, 120, 34, 58, 49, 125], 1, none⟩, 123, false, true, 1, 1⟩
        ((jsonr_k_case ⟨⟨[123, 34, 120, 34, 58, 49, 125], 1, none⟩, 123, false, true, 1, 1⟩
            (fun _ => 0) [121]).2.2) [120]).1 = 1 ∧
     (jsonr_k_case ⟨⟨[123, 34, 120, 34, 58, 49, 125], 1, none⟩, 123, false, true, 1, 1⟩
        ((jsonr_k_case ⟨⟨[123, 34, 120, 34, 58, 49, 125], 1, none⟩, 123, false, true, 1, 1⟩
            (fun _ => 0) [121]).2.2) [120]).2.1
       = ⟨⟨[123, 34, 120, 34, 58, 49, 125], 5, none⟩, 58, false, true, 1, 5⟩) :=
  ⟨by decide, k_case_mismatch_restores, by decide, by decide⟩

/-- Witness for C7: the universally quantified part applied at the concrete
key `y` (byte 121), its hypotheses discharged by computation. -/
theorem C7_failed_key_match_backtracks_witness :
    (jsonr_k_case ⟨⟨[123, 34, 120, 34, 58, 49, 125], 1, none⟩, 123, false, true, 1, 1⟩
        (fun _ => 0) [121]).1 = 0 ∧
    (jsonr_k_case ⟨⟨[123, 34, 120, 34, 58, 49, 125], 1, none⟩, 123, false, true, 1, 1⟩
        (fun _ => 0) [121]).2.1
      = ⟨⟨[123, 34, 120, 34, 58, 49, 125], 1, none⟩, 123, false, true, 1, 1⟩ :=
  C7_failed_key_match_backtracks.2.1 [121] (by decide) (by decide)

/-- A snapshot taken with `jsonr_peek_begin` restores exactly with
`jsonr_peek_end`, provided the stream has no pending pushback, the position
is within the data, and `line`/`column` survive the narrowing to `int`. -/
theorem peek_roundtrip (j : JSON_Read_Data) (hpb : j.s.pushback = none)
    (hpos : j.s.pos ≤ j.s.data.length) (hl : j.line < 2 ^ 31) (hc : j.column < 2 ^ 31) :
    jsonr_peek_begin j = (⟨toCInt j.line, toCInt j.column, j.c, (j.s.pos : Int), j.read⟩, j) ∧
    jsonr_peek_end j ⟨toCInt j.line, toCInt j.column, j.c, (j.s.pos : Int), j.read⟩ = j := by
  obtain ⟨⟨data, pos, pb⟩, c, err, rd, ln, col⟩ := j
  simp only at hpb hpos hl hc
  subst hpb
  constructor
  · unfold jsonr_peek_begin ftell
    simp
  · unfold jsonr_peek_end fseek toCInt toCULong
    have h1 : ((ln % 2 ^ 32 : Nat) : Int) - (if ln % 2 ^ 32 < 2 ^ 31 then (0 : Int) else 2 ^ 32)
        = (ln : Int) := by
      rw [Nat.mod_eq_of_lt (by omega)]
      simp
      omega
    have h2 : ((col % 2 ^ 32 : Nat) : Int) - (if col % 2 ^ 32 < 2 ^ 31 then (0 : Int) else 2 ^ 32)
        = (col : Int) := by
      rw [Nat.mod_eq_of_lt (by omega)]
      simp
      omega
    rw [h1, h2]
    have h5 : (0 : Int) ≤ (pos : Int) ∧ (pos : Int) ≤ ((data.length : Nat) : Int) := by
      constructor <;> omega
    simp [h5]
    constructor <;> omega

/-- C8, counterexample: two `jsonr_*` calls are not no-ops on an errored
state.  `jsonr_peek_end` never checks the error flag: on a state with
`error = 1` it still overwrites `c`, `line`, `column`, `read` and seeks the
stream.  `jsonr_v_stringlen` runs its trailing `_comma` even when
`jsonr_read_stringlen` returned early on the error flag, consuming a stream
byte (here the pending `,`) and changing `c`, `column` and the position. -/
theorem C8_counterexample :
    jsonr_peek_end ⟨⟨[44], 0, none⟩, 97, true, true, 1, 0⟩ ⟨2, 3, 98, 0, false⟩
      ≠ ⟨⟨[44], 0, none⟩, 97, true, true, 1, 0⟩ ∧
    (jsonr_v_stringlen ⟨⟨[44], 0, none⟩, 97, true, true, 1, 0⟩ (fun _ => 0)).j
      ≠ ⟨⟨[44], 0, none⟩, 97, true, true, 1, 0⟩ ∧
    (jsonr_v_stringlen ⟨⟨[44], 0, none⟩, 97, true, true, 1, 0⟩ (fun _ => 0)).j.s.pos = 1 := by
  decide

/-- C8, amended: for every decoder state with the error flag set — and a
well-formed stream: no pending pushback byte, position within the data, and
`line`/`column` small enough to survive the `int` narrowing in a snapshot —
every `jsonr_*` call other than `jsonr_init` (reinitialization),
`jsonr_peek_end` (which still restores the snapshot it is given) and
`jsonr_v_stringlen` (whose trailing comma consumption still runs) is a
no-op that returns 0 / a default value and leaves the decoder state and the
stream position unchanged; `jsonr_peek_begin` also changes nothing, though
it returns the actual snapshot rather than a default. -/
theorem C8_sticky_error_noop (j : JSON_Read_Data) (buf : Buf) (w : List Nat)
    (wl : Nat) (fuel : Nat)
    (herr : j.error = true) (hpb : j.s.pushback = none)
    (hpos : j.s.pos ≤ j.s.data.length) (hl : j.line < 2 ^ 31) (hc : j.column < 2 ^ 31) :
    jsonr_error j = j ∧
    jsonr_v_table_begin j = (0, j) ∧
    jsonr_v_table_can_read j = (0, j) ∧
    jsonr_v_array_begin j = (0, j) ∧
    jsonr_v_array_can_read j = (0, j) ∧
    jsonr_read_stringlen j buf = ⟨j, buf, 0, []⟩ ∧
    jsonr_k j buf = (j, buf, [], 0) ∧
    jsonr_k_eat j buf = (j, buf) ∧
    jsonr_k_is_stringlen j buf w wl = (0, j, buf) ∧
    jsonr_k_is j buf w = (0, j, buf) ∧
    jsonr_k_case j buf w = (0, j, buf) ∧
    jsonr_v_get_type j = (0, j) ∧
    jsonr_v_number j = ([], j) ∧
    jsonr_v_bool j = (0, j) ∧
    jsonr_v_null j = (0, j) ∧
    jsonr_v_skip fuel j buf = (j, buf) ∧
    jsonr_kv_skip fuel j buf = (j, buf) ∧
    (jsonr_peek_begin j).2 = j := by
  have herrj : jsonr_error j = j := by
    obtain ⟨s, c, err, rd, ln, col⟩ := j
    simp only at herr
    subst herr
    rfl
  have hkj : jsonr_k j buf = (j, buf, [], 0) := by simp [jsonr_k, herr]
  have hks : ∀ wl', jsonr_k_is_stringlen j buf w wl' = (0, j, buf) := by
    intro wl'
    unfold jsonr_k_is_stringlen
    simp only [hkj, herr, if_true]
  obtain ⟨hpb1, hpe1⟩ := peek_roundtrip j hpb hpos hl hc
  have hkis : jsonr_k_is j buf w = (0, j, buf) := by
    unfold jsonr_k_is
    simp only [hpb1, hks, hpe1]
  have hskip : jsonr_v_skip fuel j buf = (j, buf) := by
    cases fuel <;> simp [jsonr_v_skip, herr]
  refine ⟨herrj, by simp [jsonr_v_table_begin, herr], by simp [jsonr_v_table_can_read, herr],
    by simp [jsonr_v_array_begin, herr], by simp [jsonr_v_array_can_read, herr],
    by simp [jsonr_read_stringlen, herr], hkj, by simp [jsonr_k_eat, hkj],
    hks wl, hkis, by simp [jsonr_k_case, hkis], by simp [jsonr_v_get_type, herr],
    by simp [jsonr_v_number, herr], by simp [jsonr_v_bool, herr],
    by simp [jsonr_v_null, herr], hskip,
    by simp [jsonr_kv_skip, jsonr_k_eat, hkj, hskip], by rw [hpb1]⟩

/-- Witness for C8: the no-op theorem applied to a concrete errored state
(the stream `,` with one unread byte), key `x`, and fuel 1. -/
theorem C8_sticky_error_noop_witness :
    jsonr_error ⟨⟨[44], 0, none⟩, 97, true, true, 1, 1⟩
      = ⟨⟨[44], 0, none⟩, 97, true, true, 1, 1⟩ ∧
    jsonr_v_table_begin ⟨⟨[44], 0, none⟩, 97, true, true, 1, 1⟩
      = (0, ⟨⟨[44], 0, none⟩, 97, true, true, 1, 1⟩) ∧
    jsonr_v_table_can_read ⟨⟨[44], 0, none⟩, 97, true, true, 1, 1⟩
      = (0, ⟨⟨[44], 0, none⟩, 97, true, true, 1, 1⟩) ∧
    jsonr_v_array_begin ⟨⟨[44], 0, none⟩, 97, true, true, 1, 1⟩
      = (0, ⟨⟨[44], 0, none⟩, 97, true, true, 1, 1⟩) ∧
    jsonr_v_array_can_read ⟨⟨[44], 0, none⟩, 97, true, true, 1, 1⟩
      = (0, ⟨⟨[44], 0, none⟩, 97, true, true, 1, 1⟩) ∧
    jsonr_read_stringlen ⟨⟨[44], 0, none⟩, 97, true, true, 1, 1⟩ (fun _ => 0)
      = ⟨⟨⟨[44], 0, none⟩, 97, true, true, 1, 1⟩, (fun _ => 0), 0, []⟩ ∧
    jsonr_k ⟨⟨[44], 0, none⟩, 97, true, true, 1, 1⟩ (fun _ => 0)
      = (⟨⟨[44], 0, none⟩, 97, true, true, 1, 1⟩, (fun _ => 0), [], 0) ∧
    jsonr_k_eat ⟨⟨[44], 0, none⟩, 97, true, true, 1, 1⟩ (fun _ => 0)
      = (⟨⟨[44], 0, none⟩, 97, true, true, 1, 1⟩, (fun _ => 0)) ∧
    jsonr_k_is_stringlen ⟨⟨[44], 0, none⟩, 97, true, true, 1, 1⟩ (fun _ => 0) [120] 1
      = (0, ⟨⟨[44], 0, none⟩, 97, true, true, 1, 1⟩, (fun _ => 0)) ∧
    jsonr_k_is ⟨⟨[44], 0, none⟩, 97, true, true, 1, 1⟩ (fun _ => 0) [120]
      = (0, ⟨⟨[44], 0, none⟩, 97, true, true, 1, 1⟩, (fun _ => 0)) ∧
    jsonr_k_case ⟨⟨[44], 0, none⟩, 97, true, true, 1, 1⟩ (fun _ => 0) [120]
      = (0, ⟨⟨[44], 0, none⟩, 97, true, true, 1, 1⟩, (fun _ => 0)) ∧
    jsonr_v_get_type ⟨⟨[44], 0, none⟩, 97, true, true, 1, 1⟩
      = (0, ⟨⟨[44], 0, none⟩, 97, true, true, 1, 1⟩) ∧
    jsonr_v_number ⟨⟨[44], 0, none⟩, 97, true, true, 1, 1⟩
      = ([], ⟨⟨[44], 0, none⟩, 97, true, true, 1, 1⟩) ∧
    jsonr_v_bool ⟨⟨[44], 0, none⟩, 97, true, true, 1, 1⟩
      = (0, ⟨⟨[44], 0, none⟩, 97, true, true, 1, 1⟩) ∧
    jsonr_v_null ⟨⟨[44], 0, none⟩, 97, true, true, 1, 1⟩
      = (0, ⟨⟨[44], 0, none⟩, 97, true, true, 1, 1⟩) ∧
    jsonr_v_skip 1 ⟨⟨[44], 0, none⟩, 97, true, true, 1, 1⟩ (fun _ => 0)
      = (⟨⟨[44], 0, none⟩, 97, true, true, 1, 1⟩, (fun _ => 0)) ∧
    jsonr_kv_skip 1 ⟨⟨[44], 0, none⟩, 97, true, true, 1, 1⟩ (fun _ => 0)
      = (⟨⟨[44], 0, none⟩, 97, true, true, 1, 1⟩, (fun _ => 0)) ∧
    (jsonr_peek_begin ⟨⟨[44], 0, none⟩, 97, true, true, 1, 1⟩).2
      = ⟨⟨[44], 0, none⟩, 97, true, true, 1, 1⟩ :=
  C8_sticky_error_noop ⟨⟨[44], 0, none⟩, 97, true, true, 1, 1⟩ (fun _ => 0) [120] 1 1
    (by decide) rfl (by decide) (by decide) (by decide)

end JustJson
